import Mathlib

/-!
Verification of the universal file-to-text converter (`src/app.py`).

The program is a dispatcher `universal_file_converter(file_path)` that picks a
conversion strategy from the file extension (pandoc documents, xlsx
spreadsheets, html, zip archives, a pdf refusal, and a plain-text fallback),
recursing into itself for each archive member, with one `try/except` boundary
normalising every failure into an error message.

Embedding choices:
* A file's content is abstracted by the inductive `Content`, describing what
  the collaborator libraries (pypandoc, openpyxl, zipfile, UTF-8 decoding)
  observe when handed the file.  Spreadsheet cell values are modelled by their
  Python `str()` rendering (`Option String`, `none` for absent/null cells).
* `BeautifulSoup(...).get_text()` is a black-box collaborator, passed as a
  function `get_text : String → String`.
* The transient extraction artifacts produced while walking a zip archive are
  modelled by threading a multiset `disk : List String` of artifact paths:
  `zip_ref.extract(member)` pushes the member's path, `os.remove` erases it.
  The extraction target path is identified with the member's file name.
* Exceptions are modelled with `Except String`; the single `try/except` of the
  source appears as a `match` on each fallible collaborator call.
-/

/-- The line-break characters recognised by Python's `str.splitlines`. -/
def isLineBreak (c : Char) : Bool :=
  c = '\n' || c = '\r' || c = '\x0b' || c = '\x0c' ||
  c = '\x1c' || c = '\x1d' || c = '\x1e' || c = '\x85' ||
  c = '\u2028' || c = '\u2029'

/-- Worker for `str.splitlines`: cuts at every line-break character; the flag
records that the previous character was a `\r`, so that the `\n` of a `\r\n`
pair is swallowed rather than cutting again. -/
def splitlinesAux : Bool → List Char → List (List Char)
  | _, [] => []
  | afterCR, c :: cs =>
    if afterCR && c = '\n' then splitlinesAux false cs
    else if c = '\r' then [] :: splitlinesAux true cs
    else if isLineBreak c then [] :: splitlinesAux false cs
    else
      match splitlinesAux false cs with
      | [] => [[c]]
      | l :: ls => (c :: l) :: ls

/-- Python `str.splitlines` on a list of characters: cuts at every line-break
character, treating `\r\n` as a single break, and drops a final empty line. -/
def splitlinesCh (cs : List Char) : List (List Char) :=
  splitlinesAux false cs

/-- Python `str.splitlines` on strings. -/
def splitlines (s : String) : List String :=
  (splitlinesCh s.data).map String.mk

/-- Python `sep.join(parts)`. -/
def pyJoin (sep : String) : List String → String
  | [] => ""
  | [x] => x
  | x :: xs => x ++ sep ++ pyJoin sep xs

/-- Character-level counterpart of `pyJoin`, for reasoning. -/
def pyJoinCh (sep : List Char) : List (List Char) → List Char
  | [] => []
  | [x] => x
  | x :: xs => x ++ sep ++ pyJoinCh sep xs

/-- Concatenation of a list of strings in order. -/
def strConcat : List String → String
  | [] => ""
  | x :: xs => x ++ strConcat xs

/-- Splits a character list at every `'/'`. -/
def splitSegs : List Char → List (List Char)
  | [] => [[]]
  | c :: cs =>
    if c = '/' then [] :: splitSegs cs
    else
      match splitSegs cs with
      | [] => [[c]]
      | s :: ss => (c :: s) :: ss

/-- Final path component: models `pathlib.PurePath(p).name` for POSIX paths
(pathlib parsing drops empty and `.` components and keeps `..`; the name is
the last remaining component, empty when there is none). -/
def pathNameCh (p : List Char) : List Char :=
  (((splitSegs p).filter (fun s => s ≠ [] && s ≠ ['.'])).getLast?).getD []

/-- Index of the last `'.'` in a list of characters, as Python `str.rfind`. -/
def lastDotIdx : List Char → Option Nat
  | [] => none
  | c :: cs =>
    match lastDotIdx cs with
    | some i => some (i + 1)
    | none => if c = '.' then some 0 else none

/-- Models `pathlib.PurePath(p).suffix`: the part of the final component from
its last dot on, empty when the dot is leading, trailing or absent. -/
def pathSuffix (p : String) : String :=
  let name := pathNameCh p.data
  match lastDotIdx name with
  | some i => if 0 < i && i < name.length - 1 then String.mk (name.drop i) else ""
  | none => ""

/-- Models `pathlib.PurePath(p).stem`: the final component minus its suffix. -/
def pathStem (p : String) : String :=
  let name := pathNameCh p.data
  match lastDotIdx name with
  | some i => if 0 < i && i < name.length - 1 then String.mk (name.take i) else String.mk name
  | none => String.mk name

/-- Line 45: `file_extension = Path(file_path).suffix.lower()` (ASCII
lowering, enough for extensions). -/
def fileExtension (file_path : String) : String :=
  String.mk ((pathSuffix file_path).data.map Char.toLower)

/-- Abstract content of a file, as seen through the collaborator libraries.
A zip entry is `(filename, is_dir result, content once extracted)`. -/
inductive Content where
  | doc (markdown : String)
  | workbook (sheets : List (String × List (List (Option String))))
  | textData (s : String)
  | zipData (entries : List (String × Bool × Content))
  | badFile (err : String)

/-- Collaborator `pypandoc.convert_file(path, to='markdown_strict')`: succeeds
exactly on pandoc-convertible documents, raises otherwise. -/
def pypandoc_convert_file : Content → Except String String
  | .doc markdown => .ok markdown
  | .badFile e => .error e
  | _ => .error "pandoc: the file is not a convertible document"

/-- Collaborator `openpyxl.load_workbook(path)`: succeeds exactly on
well-formed xlsx workbooks, raises otherwise. -/
def load_workbook : Content → Except String (List (String × List (List (Option String))))
  | .workbook sheets => .ok sheets
  | .badFile e => .error e
  | _ => .error "openpyxl: the file is not a valid xlsx workbook"

/-- Reading a file as UTF-8 text, `open(path, encoding='utf-8').read()`:
succeeds exactly on UTF-8-decodable files, raises otherwise. -/
def open_read_utf8 : Content → Except String String
  | .textData s => .ok s
  | .badFile e => .error e
  | _ => .error "UnicodeDecodeError: invalid start byte"

/-- Collaborator `zipfile.ZipFile(path, 'r')` plus `infolist()`: succeeds
exactly on well-formed zip archives, raises otherwise. -/
def zipfile_open : Content → Except String (List (String × Bool × Content))
  | .zipData entries => .ok entries
  | .badFile e => .error e
  | _ => .error "BadZipFile: File is not a zip file"

/-- `os.linesep` on the Linux hosts the script targets (Google Colab). -/
def os_linesep : String := "\n"

/-- Line 49: the success message, computed from the path before conversion. -/
def successMessage (file_path : String) : String :=
  "Successfully converted " ++ file_path ++ " to Markdown."

/-- Line 94: the normalised failure message of the `except` clause. -/
def errorMessage (e : String) : String :=
  "An error occurred during conversion: " ++ e

/-- Line 86: the fixed message of the pdf branch. -/
def pdfMessage : String :=
  "PDF conversion requires additional, complex packages. This function does not support it."

/-- Line 64: one spreadsheet row,
`' | '.join([str(cell.value) if cell.value is not None else '' for cell in row])`. -/
def excelRowText (row : List (Option String)) : String :=
  pyJoin " | " (row.map (fun v => v.getD ""))

/-- Lines 63–65: the row loop of one sheet, accumulating `row_text + '\n'`. -/
def excelRowsText : List (List (Option String)) → String
  | [] => ""
  | row :: rest => excelRowText row ++ "\n" ++ excelRowsText rest

/-- Lines 60–65: the sheet loop, each sheet contributing the heading
`"\n\n# Excel Sheet: <name>\n"` followed by its rows. -/
def excelSheetsText : List (String × List (List (Option String))) → String
  | [] => ""
  | (sheet_name, rows) :: rest =>
    "\n\n# Excel Sheet: " ++ sheet_name ++ "\n" ++ excelRowsText rows ++ excelSheetsText rest

/-- Lines 52–55: the pandoc branch, `output_text = pypandoc.convert_file(...)`
with the surrounding `try/except`. -/
def pandocBranch (message : String) (c : Content) (disk : List String) :
    String × String × List String :=
  match pypandoc_convert_file c with
  | .ok t => (t, message, disk)
  | .error e => ("", errorMessage e, disk)

/-- Lines 56–65: the xlsx branch, `load_workbook` plus the sheet/row loops,
with the surrounding `try/except`. -/
def xlsxBranch (message : String) (c : Content) (disk : List String) :
    String × String × List String :=
  match load_workbook c with
  | .ok sheets => (excelSheetsText sheets, message, disk)
  | .error e => ("", errorMessage e, disk)

/-- Lines 66–74: the html branch: read the file as UTF-8, take
`soup.get_text()`, keep the non-blank lines joined by `os.linesep`, with the
surrounding `try/except`. -/
def htmlBranch (get_text : String → String) (message : String) (c : Content)
    (disk : List String) : String × String × List String :=
  match open_read_utf8 c with
  | .ok html_content =>
    (pyJoin os_linesep ((splitlines (get_text html_content)).filter (fun s => s ≠ "")),
     message, disk)
  | .error e => ("", errorMessage e, disk)

/-- Lines 88–91: the fallback branch, a plain UTF-8 read, with the
surrounding `try/except`. -/
def plainTextBranch (message : String) (c : Content) (disk : List String) :
    String × String × List String :=
  match open_read_utf8 c with
  | .ok s => (s, message, disk)
  | .error e => ("", errorMessage e, disk)

mutual

/-- Lines 34–97, `universal_file_converter(file_path)`.  `get_text` is the
`soup.get_text()` collaborator, `c` the content of `file_path`, `disk` the
extraction artifacts currently on disk; returns
`(output_text, message, disk after the call)`.  In the zip branch,
`zipfile_open` is inlined as a match on `c` (same case split, same errors;
see `zip_branch_eq_zipfile_open`) so the recursion is structural in `c`. -/
def universal_file_converter (get_text : String → String) (file_path : String)
    (c : Content) (disk : List String) : String × String × List String :=
  let file_extension := fileExtension file_path
  let message := successMessage file_path
  if file_extension ∈ [".docx", ".pptx", ".odt", ".rtf"] then
    pandocBranch message c disk
  else if file_extension ∈ [".xlsx"] then
    xlsxBranch message c disk
  else if file_extension ∈ [".html", ".htm"] then
    htmlBranch get_text message c disk
  else if file_extension = ".zip" then
    match c with
    | .zipData entries =>
      let r := zipEntriesConvert get_text entries disk
      (r.1, message, r.2)
    | .badFile e => ("", errorMessage e, disk)
    | _ => ("", errorMessage "BadZipFile: File is not a zip file", disk)
  else if file_extension = ".pdf" then
    ("", pdfMessage, disk)
  else
    plainTextBranch message c disk

/-- Lines 78–84: the loop over `zip_ref.infolist()`: directories are skipped;
a file entry is extracted, recursively converted (its message discarded), its
header and text appended, and the extraction removed.  Returns the
accumulated `output_text` and the final disk state. -/
def zipEntriesConvert (get_text : String → String)
    (entries : List (String × Bool × Content)) (disk : List String) :
    String × List String :=
  match entries with
  | [] => ("", disk)
  | (filename, is_dir, ec) :: rest =>
    if is_dir then zipEntriesConvert get_text rest disk
    else
      let r := universal_file_converter get_text filename ec (filename :: disk)
      let r2 := zipEntriesConvert get_text rest (r.2.2.erase filename)
      ("\n\n-- ZIP Archive: " ++ filename ++ " --\n" ++ r.1 ++ r2.1, r2.2)

end

/-- The exception (if any) raised by the selected strategy's fallible
collaborator call, before the `except` clause normalises it.  The pdf branch
and the zip member loop raise nothing (nested conversions catch their own
failures). -/
def strategyError (file_path : String) (c : Content) : Option String :=
  let file_extension := fileExtension file_path
  if file_extension ∈ [".docx", ".pptx", ".odt", ".rtf"] then
    match pypandoc_convert_file c with | .ok _ => none | .error e => some e
  else if file_extension ∈ [".xlsx"] then
    match load_workbook c with | .ok _ => none | .error e => some e
  else if file_extension ∈ [".html", ".htm"] then
    match open_read_utf8 c with | .ok _ => none | .error e => some e
  else if file_extension = ".zip" then
    match zipfile_open c with | .ok _ => none | .error e => some e
  else if file_extension = ".pdf" then none
  else
    match open_read_utf8 c with | .ok _ => none | .error e => some e

/-- Lines 99–123, `display_and_download_output(text, file_name)`: `none` when
it prints "No content to display or download." (falsy `text`), otherwise the
preview string and the download file name. -/
def display_and_download_output (text file_name : String) :
    Option (String × String) :=
  if text = "" then none
  else some (text.take 1000 ++ (if text.length > 1000 then "..." else ""),
             pathStem file_name ++ "_converted.md")

/-! Helper lemmas. -/

set_option maxHeartbeats 1600000
set_option linter.unnecessarySeqFocus false

theorem strConcat_cons (x : String) (xs : List String) :
    strConcat (x :: xs) = x ++ strConcat xs := rfl

/-- The inlined zip branch of `universal_file_converter` performs the same
case split as the `zipfile_open` collaborator. -/
theorem zip_branch_eq_zipfile_open (get_text : String → String) (p : String)
    (c : Content) (disk : List String) (h : fileExtension p = ".zip") :
    universal_file_converter get_text p c disk =
      match zipfile_open c with
      | .ok entries =>
        ((zipEntriesConvert get_text entries disk).1, successMessage p,
         (zipEntriesConvert get_text entries disk).2)
      | .error e => ("", errorMessage e, disk) := by
  rw [universal_file_converter.eq_def]
  simp only [h]
  rw [if_neg (by decide), if_neg (by decide), if_neg (by decide), if_pos trivial]
  cases c <;> rfl

mutual

/-- The converter's outputs do not depend on the pre-existing disk state, and
the disk state is restored on return. -/
theorem ufc_state (get_text : String → String) (p : String) (c : Content)
    (d : List String) :
    universal_file_converter get_text p c d =
      ((universal_file_converter get_text p c []).1,
       (universal_file_converter get_text p c []).2.1, d) := by
  rw [universal_file_converter.eq_def, universal_file_converter.eq_def]
  simp only []
  split_ifs
  · simp only [pandocBranch]; cases pypandoc_convert_file c <;> rfl
  · simp only [xlsxBranch]; cases load_workbook c <;> rfl
  · simp only [htmlBranch]; cases open_read_utf8 c <;> rfl
  · cases c <;> simp only [] <;>
      first
      | rfl
      | (rename_i entries
         rw [zec_state get_text entries d, zec_state get_text entries []])
  · rfl
  · simp only [plainTextBranch]; cases open_read_utf8 c <;> rfl

/-- The zip member loop's accumulated text does not depend on the disk state,
and every extraction it performs is removed again before it returns. -/
theorem zec_state (get_text : String → String)
    (entries : List (String × Bool × Content)) (d : List String) :
    zipEntriesConvert get_text entries d =
      ((zipEntriesConvert get_text entries []).1, d) := by
  match entries with
  | [] => rfl
  | (filename, is_dir, ec) :: rest =>
    rw [zipEntriesConvert.eq_def, zipEntriesConvert.eq_def]
    simp only []
    by_cases h : is_dir = true
    · rw [if_pos h, if_pos h]
      exact zec_state get_text rest d
    · rw [if_neg h, if_neg h]
      simp only []
      rw [ufc_state get_text filename ec (filename :: d),
          ufc_state get_text filename ec [filename]]
      simp only [List.erase_cons_head]
      rw [zec_state get_text rest d, zec_state get_text rest []]

end

/-- Whenever the selected strategy raises, the `except` clause yields empty
text and the normalised message, leaving the disk unchanged. -/
theorem ufc_error (get_text : String → String) (p : String) (c : Content)
    (d : List String) (e : String) (h : strategyError p c = some e) :
    universal_file_converter get_text p c d = ("", errorMessage e, d) := by
  rw [strategyError.eq_def] at h
  rw [universal_file_converter.eq_def]
  simp only [] at h ⊢
  by_cases h1 : fileExtension p ∈ [".docx", ".pptx", ".odt", ".rtf"]
  · rw [if_pos h1] at h ⊢
    simp only [pandocBranch]
    cases hc : pypandoc_convert_file c <;> simp_all
  · rw [if_neg h1] at h ⊢
    by_cases h2 : fileExtension p ∈ [".xlsx"]
    · rw [if_pos h2] at h ⊢
      simp only [xlsxBranch]
      cases hc : load_workbook c <;> simp_all
    · rw [if_neg h2] at h ⊢
      by_cases h3 : fileExtension p ∈ [".html", ".htm"]
      · rw [if_pos h3] at h ⊢
        simp only [htmlBranch]
        cases hc : open_read_utf8 c <;> simp_all
      · rw [if_neg h3] at h ⊢
        by_cases h4 : fileExtension p = ".zip"
        · rw [if_pos h4] at h ⊢
          cases c <;> simp_all [zipfile_open]
        · rw [if_neg h4] at h ⊢
          by_cases h5 : fileExtension p = ".pdf"
          · rw [if_pos h5] at h
            exact absurd h (by simp)
          · rw [if_neg h5] at h ⊢
            simp only [plainTextBranch]
            cases hc : open_read_utf8 c <;> simp_all

/-- Whenever no strategy raises and the extension is not `.pdf`, the returned
message is the success message computed from the path. -/
theorem ufc_success_msg (get_text : String → String) (p : String) (c : Content)
    (d : List String) (h : strategyError p c = none)
    (hp : fileExtension p ≠ ".pdf") :
    (universal_file_converter get_text p c d).2.1 = successMessage p := by
  rw [strategyError.eq_def] at h
  rw [universal_file_converter.eq_def]
  simp only [] at h ⊢
  by_cases h1 : fileExtension p ∈ [".docx", ".pptx", ".odt", ".rtf"]
  · rw [if_pos h1] at h ⊢
    simp only [pandocBranch]
    cases hc : pypandoc_convert_file c <;> simp_all
  · rw [if_neg h1] at h ⊢
    by_cases h2 : fileExtension p ∈ [".xlsx"]
    · rw [if_pos h2] at h ⊢
      simp only [xlsxBranch]
      cases hc : load_workbook c <;> simp_all
    · rw [if_neg h2] at h ⊢
      by_cases h3 : fileExtension p ∈ [".html", ".htm"]
      · rw [if_pos h3] at h ⊢
        simp only [htmlBranch]
        cases hc : open_read_utf8 c <;> simp_all
      · rw [if_neg h3] at h ⊢
        by_cases h4 : fileExtension p = ".zip"
        · rw [if_pos h4] at h ⊢
          cases c <;> simp_all [zipfile_open]
        · rw [if_neg h4] at h ⊢
          rw [if_neg hp] at h ⊢
          simp only [plainTextBranch]
          cases hc : open_read_utf8 c <;> simp_all

/-! Spec-side descriptions, written from the specification's words, to be
compared with the code's accumulation. -/

/-- Spec §4.2 SpreadsheetStrategy: one sheet's contribution — a heading line
for the sheet (preceded by a blank-line separation), then each row's cells
joined with `" | "`, the empty string substituted for absent/null cells. -/
def specSheetText (sheet : String × List (List (Option String))) : String :=
  "\n\n# Excel Sheet: " ++ sheet.1 ++ "\n" ++
    strConcat (sheet.2.map (fun row => pyJoin " | " (row.map (fun v => v.getD "")) ++ "\n"))

/-- Spec §4.2 ArchiveStrategy: one entry's contribution — nothing for a
directory entry, otherwise the separator header followed by the recursive
conversion's text only (the nested message is discarded). -/
def specZipEntryText (get_text : String → String)
    (entry : String × Bool × Content) : String :=
  if entry.2.1 then ""
  else "\n\n-- ZIP Archive: " ++ entry.1 ++ " --\n" ++
    (universal_file_converter get_text entry.1 entry.2.2 []).1

theorem excelRowsText_eq_spec (rows : List (List (Option String))) :
    excelRowsText rows =
      strConcat (rows.map (fun row => pyJoin " | " (row.map (fun v => v.getD "")) ++ "\n")) := by
  induction rows with
  | nil => rfl
  | cons row rest ih =>
    show excelRowText row ++ "\n" ++ excelRowsText rest = _
    rw [ih]
    rfl

theorem excelSheetsText_eq_spec (sheets : List (String × List (List (Option String)))) :
    excelSheetsText sheets = strConcat (sheets.map specSheetText) := by
  induction sheets with
  | nil => rfl
  | cons s rest ih =>
    obtain ⟨sheet_name, rows⟩ := s
    show "\n\n# Excel Sheet: " ++ sheet_name ++ "\n" ++ excelRowsText rows ++
      excelSheetsText rest = _
    rw [ih, excelRowsText_eq_spec]
    rfl

/-- The zip loop's accumulated text is the concatenation, in stored order, of
the per-entry contributions the spec describes. -/
theorem zec_text_eq_spec (get_text : String → String)
    (entries : List (String × Bool × Content)) (d : List String) :
    (zipEntriesConvert get_text entries d).1 =
      strConcat (entries.map (specZipEntryText get_text)) := by
  induction entries generalizing d with
  | nil => rfl
  | cons entry rest ih =>
    obtain ⟨filename, is_dir, ec⟩ := entry
    rw [zipEntriesConvert.eq_def]
    simp only []
    by_cases h : is_dir = true
    · rw [if_pos h, ih d]
      simp [specZipEntryText, h, strConcat_cons]
    · rw [if_neg h]
      simp only []
      rw [ufc_state get_text filename ec (filename :: d)]
      simp only [List.erase_cons_head]
      rw [ih d]
      simp [specZipEntryText, h, strConcat_cons, String.append_assoc]

/-- Dispatch: a path with a document extension takes the pandoc branch. -/
theorem ufc_eq_pandocBranch (get_text : String → String) (p : String)
    (c : Content) (d : List String)
    (h : fileExtension p ∈ [".docx", ".pptx", ".odt", ".rtf"]) :
    universal_file_converter get_text p c d =
      pandocBranch (successMessage p) c d := by
  rw [universal_file_converter.eq_def]
  simp only []
  rw [if_pos h]

/-- Dispatch: a `.xlsx` path takes the spreadsheet branch. -/
theorem ufc_eq_xlsxBranch (get_text : String → String) (p : String)
    (c : Content) (d : List String) (h : fileExtension p = ".xlsx") :
    universal_file_converter get_text p c d =
      xlsxBranch (successMessage p) c d := by
  rw [universal_file_converter.eq_def]
  simp only [h]
  rw [if_neg (by decide), if_pos (by decide)]

/-- Dispatch: a `.html` or `.htm` path takes the markup branch. -/
theorem ufc_eq_htmlBranch (get_text : String → String) (p : String)
    (c : Content) (d : List String)
    (h : fileExtension p = ".html" ∨ fileExtension p = ".htm") :
    universal_file_converter get_text p c d =
      htmlBranch get_text (successMessage p) c d := by
  rw [universal_file_converter.eq_def]
  rcases h with h | h <;> simp only [h] <;>
    rw [if_neg (by decide), if_neg (by decide), if_pos (by decide)]

/-- Dispatch: a path whose extension is not recognised falls through to the
plain UTF-8 text read. -/
theorem ufc_eq_plainTextBranch (get_text : String → String) (p : String)
    (c : Content) (d : List String)
    (h : fileExtension p ∉
      [".docx", ".pptx", ".odt", ".rtf", ".xlsx", ".html", ".htm", ".zip", ".pdf"]) :
    universal_file_converter get_text p c d =
      plainTextBranch (successMessage p) c d := by
  simp only [List.mem_cons, List.mem_singleton, not_or] at h
  obtain ⟨n1, n2, n3, n4, n5, n6, n7, n8, n9, -⟩ := h
  rw [universal_file_converter.eq_def]
  simp only []
  rw [if_neg (by simp [n1, n2, n3, n4]), if_neg (by simp [n5]),
      if_neg (by simp [n6, n7]), if_neg n8, if_neg n9]

/-- A zip archive all of whose entries are directories contributes no text
and no disk change. -/
theorem zec_all_dirs (get_text : String → String)
    (entries : List (String × Bool × Content)) (d : List String)
    (h : ∀ entry ∈ entries, entry.2.1 = true) :
    zipEntriesConvert get_text entries d = ("", d) := by
  induction entries with
  | nil => rfl
  | cons entry rest ih =>
    obtain ⟨filename, is_dir, ec⟩ := entry
    rw [zipEntriesConvert.eq_def]
    simp only []
    rw [if_pos (h _ (List.mem_cons_self _ _))]
    exact ih (fun x hx => h x (List.mem_cons_of_mem _ hx))

/-- Every line produced by `str.splitlines` is free of line-break
characters. -/
theorem splitlinesAux_no_break (cs : List Char) : ∀ (flag : Bool),
    ∀ l ∈ splitlinesAux flag cs, ∀ ch ∈ l, isLineBreak ch = false := by
  induction cs with
  | nil =>
    intro flag l hl
    simp [splitlinesAux] at hl
  | cons c cs ih =>
    intro flag l hl
    rw [splitlinesAux.eq_def] at hl
    simp only [] at hl
    split_ifs at hl with h1 h2 h3
    · exact ih false l hl
    · rcases List.mem_cons.mp hl with rfl | hm
      · intro ch hch; simp at hch
      · exact ih true l hm
    · rcases List.mem_cons.mp hl with rfl | hm
      · intro ch hch; simp at hch
      · exact ih false l hm
    · have hcb : isLineBreak c = false := by
        exact Bool.not_eq_true _ ▸ Bool.of_not_eq_true h3
      cases hs : splitlinesAux false cs with
      | nil =>
        rw [hs] at hl
        simp only [List.mem_singleton] at hl
        subst hl
        intro ch hch
        rcases List.mem_singleton.mp hch with rfl
        exact hcb
      | cons l0 ls =>
        rw [hs] at hl
        rcases List.mem_cons.mp hl with rfl | hm
        · intro ch hch
          rcases List.mem_cons.mp hch with rfl | hm0
          · exact hcb
          · exact ih false l0 (hs ▸ List.mem_cons_self _ _) ch hm0
        · exact ih false l (hs ▸ List.mem_cons_of_mem _ hm)

/-- A nonempty chunk with no line-break characters is a single line. -/
theorem splitlinesAux_all_text (l : List Char) (flag : Bool)
    (h : ∀ ch ∈ l, isLineBreak ch = false) (hne : l ≠ []) :
    splitlinesAux flag l = [l] := by
  induction l generalizing flag with
  | nil => exact absurd rfl hne
  | cons c cs ih =>
    have hcb : isLineBreak c = false := h c (List.mem_cons_self _ _)
    have hcn : (c = '\n') = False := by
      simp only [eq_iff_iff, iff_false]
      intro hc
      rw [hc] at hcb
      simp [isLineBreak] at hcb
    have hcr : (c = '\r') = False := by
      simp only [eq_iff_iff, iff_false]
      intro hc
      rw [hc] at hcb
      simp [isLineBreak] at hcb
    rw [splitlinesAux.eq_def]
    simp only [hcn, decide_False, Bool.and_false, Bool.false_eq_true, if_false,
      hcr, hcb, if_false]
    cases hcs : cs with
    | nil => rfl
    | cons c2 cs2 =>
      subst hcs
      rw [ih false (fun x hx => h x (List.mem_cons_of_mem _ hx)) (by simp)]

/-- Appending a newline and more text after a nonempty break-free chunk
splits as that chunk followed by the remaining lines. -/
theorem splitlinesAux_chunk_newline (l : List Char) (rest : List Char)
    (flag : Bool) (h : ∀ ch ∈ l, isLineBreak ch = false) (hne : l ≠ []) :
    splitlinesAux flag (l ++ '\n' :: rest) = l :: splitlinesAux false rest := by
  induction l generalizing flag with
  | nil => exact absurd rfl hne
  | cons c cs ih =>
    have hcb : isLineBreak c = false := h c (List.mem_cons_self _ _)
    have hcn : (c = '\n') = False := by
      simp only [eq_iff_iff, iff_false]
      intro hc
      rw [hc] at hcb
      simp [isLineBreak] at hcb
    have hcr : (c = '\r') = False := by
      simp only [eq_iff_iff, iff_false]
      intro hc
      rw [hc] at hcb
      simp [isLineBreak] at hcb
    rw [List.cons_append, splitlinesAux.eq_def]
    simp only [hcn, decide_False, Bool.and_false, Bool.false_eq_true, if_false,
      hcr, hcb, if_false]
    cases hcs : cs with
    | nil =>
      simp only [List.nil_append]
      have hnl : splitlinesAux false ('\n' :: rest) = [] :: splitlinesAux false rest := by
        rw [splitlinesAux.eq_def]
        simp [isLineBreak]
      rw [hnl]
    | cons c2 cs2 =>
      subst hcs
      rw [ih false (fun x hx => h x (List.mem_cons_of_mem _ hx)) (by simp)]

/-- Joining nonempty break-free lines with `'\n'` and splitting again
recovers exactly those lines. -/
theorem splitlinesAux_join (ls : List (List Char))
    (h : ∀ l ∈ ls, l ≠ [] ∧ ∀ ch ∈ l, isLineBreak ch = false) :
    splitlinesAux false (pyJoinCh ['\n'] ls) = ls := by
  induction ls with
  | nil => rfl
  | cons x xs ih =>
    cases xs with
    | nil =>
      show splitlinesAux false x = [x]
      exact splitlinesAux_all_text x false (h x (List.mem_cons_self _ _)).2
        (h x (List.mem_cons_self _ _)).1
    | cons y ys =>
      show splitlinesAux false (x ++ ['\n'] ++ pyJoinCh ['\n'] (y :: ys)) = _
      rw [List.append_assoc, List.singleton_append]
      rw [splitlinesAux_chunk_newline x _ false (h x (List.mem_cons_self _ _)).2
        (h x (List.mem_cons_self _ _)).1]
      rw [ih (fun l hl => h l (List.mem_cons_of_mem _ hl))]

/-- `pyJoin` agrees with its character-level counterpart. -/
theorem pyJoin_data (sep : String) : ∀ (ss : List String),
    (pyJoin sep ss).data = pyJoinCh sep.data (ss.map String.data)
  | [] => rfl
  | [x] => rfl
  | x :: y :: ys => by
    show (x ++ sep ++ pyJoin sep (y :: ys)).data = _
    rw [String.data_append, String.data_append, pyJoin_data sep (y :: ys)]
    rfl

/-- Rebuilding a string from its character data is the identity. -/
theorem stringMk_data (s : String) : String.mk s.data = s := rfl

/-- Lines produced by `splitlines` carry no line-break characters. -/
theorem splitlines_no_break (t : String) :
    ∀ s ∈ splitlines t, ∀ ch ∈ s.data, isLineBreak ch = false := by
  intro s hs ch hch
  unfold splitlines splitlinesCh at hs
  rcases List.mem_map.mp hs with ⟨l, hl, rfl⟩
  exact splitlinesAux_no_break t.data false l hl ch hch

/-- Splitting the `'\n'`-join of nonempty break-free lines recovers
exactly those lines (string level). -/
theorem splitlines_join (ls : List String)
    (h1 : ∀ s ∈ ls, s ≠ "")
    (h2 : ∀ s ∈ ls, ∀ ch ∈ s.data, isLineBreak ch = false) :
    splitlines (pyJoin "\n" ls) = ls := by
  unfold splitlines splitlinesCh
  rw [pyJoin_data]
  have hd : ("\n" : String).data = ['\n'] := rfl
  rw [hd]
  rw [splitlinesAux_join (ls.map String.data) ?_]
  · rw [List.map_map]
    have : (String.mk ∘ String.data) = id := funext stringMk_data
    rw [this, List.map_id]
  · intro l hl
    rcases List.mem_map.mp hl with ⟨s, hs, rfl⟩
    refine ⟨?_, h2 s hs⟩
    intro hnil
    exact h1 s hs (by
      have := congrArg String.mk hnil
      rw [stringMk_data] at this
      exact this)

/-! The claims. -/

/-- C1: conversion always returns a (text, message) pair — the embedding is a
total function — and whenever the selected strategy's execution fails with
error `e`, the returned text is empty and the returned message is exactly
"An error occurred during conversion: " followed by `e`. -/
theorem claim_C1_error_normalisation (get_text : String → String) (p : String)
    (c : Content) (d : List String) (e : String)
    (h : strategyError p c = some e) :
    (universal_file_converter get_text p c d).1 = "" ∧
    (universal_file_converter get_text p c d).2.1 =
      "An error occurred during conversion: " ++ e := by
  rw [ufc_error get_text p c d e h]
  exact ⟨rfl, rfl⟩

theorem claim_C1_witness :
    strategyError "book.xlsx" (.textData "not a workbook") =
      some "openpyxl: the file is not a valid xlsx workbook" ∧
    ((universal_file_converter id "book.xlsx" (.textData "not a workbook") []).1 = "" ∧
     (universal_file_converter id "book.xlsx" (.textData "not a workbook") []).2.1 =
       "An error occurred during conversion: " ++
         "openpyxl: the file is not a valid xlsx workbook") :=
  ⟨rfl, claim_C1_error_normalisation id "book.xlsx" (.textData "not a workbook") [] _ rfl⟩

/-- C2: a `.zip` whose archive opens as `entries` converts, with overall
success, to the concatenation over the entries in stored order of: nothing
for a directory entry, otherwise the header "-- ZIP Archive: <name> --"
followed by the recursive conversion's text only (the nested message is
discarded); in particular a failed nested member contributes exactly its
header with an empty body. -/
theorem claim_C2_zip_aggregation (get_text : String → String) (p : String)
    (entries : List (String × Bool × Content)) (d : List String)
    (h : fileExtension p = ".zip") :
    universal_file_converter get_text p (.zipData entries) d =
      (strConcat (entries.map (specZipEntryText get_text)), successMessage p, d) ∧
    ∀ name ec e, strategyError name ec = some e →
      specZipEntryText get_text (name, false, ec) =
        "\n\n-- ZIP Archive: " ++ name ++ " --\n" := by
  constructor
  · have h1 := zec_text_eq_spec get_text entries d
    have h2 : (zipEntriesConvert get_text entries d).2 = d := by rw [zec_state]
    rw [zip_branch_eq_zipfile_open get_text p _ d h]
    simp only [zipfile_open]
    rw [h1, h2]
  · intro name ec e he
    simp only [specZipEntryText]
    rw [if_neg (by simp)]
    have hconv := ufc_error get_text name ec [] e he
    rw [hconv]
    simp

theorem claim_C2_witness :
    fileExtension "a.zip" = ".zip" ∧
    (universal_file_converter id "a.zip"
        (.zipData [("bad.xlsx", false, .textData "x")]) [] =
      ("\n\n-- ZIP Archive: bad.xlsx --\n",
       "Successfully converted a.zip to Markdown.", []) ∧
     specZipEntryText id ("bad.xlsx", false, .textData "x") =
       "\n\n-- ZIP Archive: bad.xlsx --\n") :=
  ⟨rfl,
   (claim_C2_zip_aggregation id "a.zip" [("bad.xlsx", false, .textData "x")] [] rfl).1,
   (claim_C2_zip_aggregation id "a.zip" [] [] rfl).2 "bad.xlsx" (.textData "x")
     "openpyxl: the file is not a valid xlsx workbook" rfl⟩

/-- C3: a well-formed `.xlsx` workbook converts, sheet by sheet in workbook
order and row by row in sheet order, each row's cells joined with " | "
(empty string for absent/null cells), each sheet preceded by the heading
"# Excel Sheet: <name>" with blank-line separation; in particular the
workbook with one sheet "Sheet1" and rows [["a","b"],["",1]] yields
"# Excel Sheet: Sheet1" followed by the lines "a | b" and " | 1". -/
theorem claim_C3_xlsx_layout (get_text : String → String) (p : String)
    (d : List String) (h : fileExtension p = ".xlsx") :
    (∀ sheets, universal_file_converter get_text p (.workbook sheets) d =
      (strConcat (sheets.map specSheetText), successMessage p, d)) ∧
    (universal_file_converter get_text p
        (.workbook [("Sheet1", [[some "a", some "b"], [none, some "1"]])]) d).1 =
      "\n\n# Excel Sheet: Sheet1\na | b\n | 1\n" := by
  have hmain : ∀ sheets, universal_file_converter get_text p (.workbook sheets) d =
      (strConcat (sheets.map specSheetText), successMessage p, d) := by
    intro sheets
    rw [ufc_eq_xlsxBranch get_text p _ d h]
    simp only [xlsxBranch, load_workbook]
    rw [excelSheetsText_eq_spec]
  refine ⟨hmain, ?_⟩
  rw [hmain [("Sheet1", [[some "a", some "b"], [none, some "1"]])]]
  rfl

theorem claim_C3_witness :
    fileExtension "wb.xlsx" = ".xlsx" ∧
    (universal_file_converter id "wb.xlsx"
        (.workbook [("Sheet1", [[some "a", some "b"], [none, some "1"]])]) []).1 =
      "\n\n# Excel Sheet: Sheet1\na | b\n | 1\n" :=
  ⟨rfl, (claim_C3_xlsx_layout id "wb.xlsx" [] rfl).2⟩

/-- C4: format resolution is total — the extension is taken
case-insensitively from the final path segment, and any file whose extension
is not in the recognised set falls through to a plain UTF-8 text read. -/
theorem claim_C4_fallback_read (get_text : String → String) (p : String)
    (c : Content) (d : List String)
    (h : fileExtension p ∉
      [".docx", ".pptx", ".odt", ".rtf", ".xlsx", ".html", ".htm", ".zip", ".pdf"]) :
    (universal_file_converter get_text p c d =
      match open_read_utf8 c with
      | .ok s => (s, successMessage p, d)
      | .error e => ("", errorMessage e, d)) ∧
    fileExtension "DIR.ZIP/NOTES.XYZ" = ".xyz" := by
  constructor
  · rw [ufc_eq_plainTextBranch get_text p c d h]
    rfl
  · decide

theorem claim_C4_witness :
    fileExtension "f.xyz" ∉
      [".docx", ".pptx", ".odt", ".rtf", ".xlsx", ".html", ".htm", ".zip", ".pdf"] ∧
    universal_file_converter id "f.xyz" (.textData "hello") [] =
      ("hello", "Successfully converted f.xyz to Markdown.", []) :=
  ⟨by decide,
   (claim_C4_fallback_read id "f.xyz" (.textData "hello") [] (by decide)).1⟩

/-- C5: every `.pdf` input yields failure with empty text and the one fixed
unsupported-format message, whatever the file's content (the content is
universally quantified: the file is never read). -/
theorem claim_C5_pdf_unsupported (get_text : String → String) (p : String)
    (c : Content) (d : List String) (h : fileExtension p = ".pdf") :
    universal_file_converter get_text p c d =
      ("",
       "PDF conversion requires additional, complex packages. This function does not support it.",
       d) := by
  rw [universal_file_converter.eq_def]
  simp only [h]
  rw [if_neg (by decide), if_neg (by decide), if_neg (by decide),
      if_neg (by decide), if_pos trivial]
  rfl

theorem claim_C5_witness :
    fileExtension "paper.pdf" = ".pdf" ∧
    universal_file_converter id "paper.pdf" (.badFile "unreadable") [] =
      ("",
       "PDF conversion requires additional, complex packages. This function does not support it.",
       []) :=
  ⟨rfl, claim_C5_pdf_unsupported id "paper.pdf" (.badFile "unreadable") [] rfl⟩

/-- C6: conversion leaves the disk as it found it — every transient
extraction performed while walking an archive (at any nesting depth) is
removed before the enclosing call returns, both for the whole conversion and
for the member loop at each level. -/
theorem claim_C6_extraction_cleanup (get_text : String → String) (p : String)
    (c : Content) (d : List String) :
    (universal_file_converter get_text p c d).2.2 = d ∧
    ∀ entries, (zipEntriesConvert get_text entries d).2 = d := by
  constructor
  · rw [ufc_state]
  · intro entries
    rw [zec_state]

/-- C7: a `.html`/`.htm` input converts to the collaborator-extracted visible
text with every blank line discarded and the remaining lines joined by the
platform line separator, so the returned text contains no blank lines. -/
theorem claim_C7_html_no_blank_lines (get_text : String → String) (p : String)
    (s : String) (d : List String)
    (h : fileExtension p = ".html" ∨ fileExtension p = ".htm") :
    universal_file_converter get_text p (.textData s) d =
      (pyJoin os_linesep ((splitlines (get_text s)).filter (fun t => t ≠ "")),
       successMessage p, d) ∧
    ∀ t ∈ splitlines ((universal_file_converter get_text p (.textData s) d).1),
      t ≠ "" := by
  have hmain : universal_file_converter get_text p (.textData s) d =
      (pyJoin os_linesep ((splitlines (get_text s)).filter (fun t => t ≠ "")),
       successMessage p, d) := by
    rw [ufc_eq_htmlBranch get_text p _ d h]
    rfl
  refine ⟨hmain, ?_⟩
  rw [hmain]
  simp only []
  have hns : ∀ x ∈ (splitlines (get_text s)).filter (fun t => t ≠ ""), x ≠ "" := by
    intro x hx
    simpa using (List.mem_filter.mp hx).2
  have hnb : ∀ x ∈ (splitlines (get_text s)).filter (fun t => t ≠ ""),
      ∀ ch ∈ x.data, isLineBreak ch = false := by
    intro x hx
    exact splitlines_no_break (get_text s) x (List.mem_filter.mp hx).1
  have hsep : os_linesep = "\n" := rfl
  rw [hsep, splitlines_join _ hns hnb]
  exact hns

theorem claim_C7_witness :
    (fileExtension "pg.html" = ".html" ∨ fileExtension "pg.html" = ".htm") ∧
    (universal_file_converter id "pg.html" (.textData "a\n\nb") [] =
      (pyJoin os_linesep ((splitlines (id "a\n\nb")).filter (fun t => t ≠ "")),
       successMessage "pg.html", []) ∧
     ∀ t ∈ splitlines ((universal_file_converter id "pg.html" (.textData "a\n\nb") []).1),
       t ≠ "") :=
  ⟨Or.inl rfl, claim_C7_html_no_blank_lines id "pg.html" "a\n\nb" [] (Or.inl rfl)⟩

/-- C8: conversion is deterministic and side-effect-free with respect to its
input: running the conversion again, from the disk state the first call left
behind, yields identical text and identical message. -/
theorem claim_C8_idempotent (get_text : String → String) (p : String)
    (c : Content) (d : List String) :
    (universal_file_converter get_text p c
       ((universal_file_converter get_text p c d).2.2)).1 =
      (universal_file_converter get_text p c d).1 ∧
    (universal_file_converter get_text p c
       ((universal_file_converter get_text p c d).2.2)).2.1 =
      (universal_file_converter get_text p c d).2.1 := by
  have hd : (universal_file_converter get_text p c d).2.2 = d := by
    rw [ufc_state]
  rw [hd]
  exact ⟨rfl, rfl⟩

/-- C9: whenever no strategy raises and the extension is not `.pdf`, the
message is exactly "Successfully converted <file_path> to Markdown." — the
one uniform success message, computed from the path, for every strategy. -/
theorem claim_C9_uniform_success_message (get_text : String → String)
    (p : String) (c : Content) (d : List String)
    (h1 : strategyError p c = none) (h2 : fileExtension p ≠ ".pdf") :
    (universal_file_converter get_text p c d).2.1 =
      "Successfully converted " ++ p ++ " to Markdown." :=
  ufc_success_msg get_text p c d h1 h2

theorem claim_C9_witness :
    strategyError "n.txt" (.textData "hi") = none ∧
    fileExtension "n.txt" ≠ ".pdf" ∧
    (universal_file_converter id "n.txt" (.textData "hi") []).2.1 =
      "Successfully converted " ++ "n.txt" ++ " to Markdown." :=
  ⟨rfl, by decide,
   claim_C9_uniform_success_message id "n.txt" (.textData "hi") [] rfl (by decide)⟩

/-- C10: a well-formed `.zip` with no file entries (empty, or directories
only) converts successfully to the empty text, and the display layer treats
that empty text as "No content" (it returns nothing to preview). -/
theorem claim_C10_empty_zip (get_text : String → String) (p : String)
    (entries : List (String × Bool × Content)) (d : List String)
    (h1 : fileExtension p = ".zip")
    (h2 : ∀ entry ∈ entries, entry.2.1 = true) :
    universal_file_converter get_text p (.zipData entries) d =
      ("", successMessage p, d) ∧
    display_and_download_output
      (universal_file_converter get_text p (.zipData entries) d).1 p = none := by
  have hmain : universal_file_converter get_text p (.zipData entries) d =
      ("", successMessage p, d) := by
    rw [zip_branch_eq_zipfile_open get_text p _ d h1]
    simp only [zipfile_open]
    rw [zec_all_dirs get_text entries d h2]
  refine ⟨hmain, ?_⟩
  rw [hmain]
  rfl

theorem claim_C10_witness :
    fileExtension "empty.zip" = ".zip" ∧
    (∀ entry ∈ [("sub/", true, Content.textData "")], entry.2.1 = true) ∧
    (universal_file_converter id "empty.zip"
        (.zipData [("sub/", true, Content.textData "")]) [] =
      ("", "Successfully converted empty.zip to Markdown.", []) ∧
     display_and_download_output
       (universal_file_converter id "empty.zip"
          (.zipData [("sub/", true, Content.textData "")]) []).1 "empty.zip" = none) :=
  ⟨rfl, by decide,
   claim_C10_empty_zip id "empty.zip" [("sub/", true, Content.textData "")] [] rfl
     (by decide)⟩
